import Mathlib

/-!
Verification of the terminal-emulation engine of `qTerminal-Widget`
(`src/main.cpp`, class `TerminalWidget`), against its natural-language
specification.

The embedding below models the state mutated by `TerminalWidget::handleOutput`,
`TerminalWidget::parseEscapeSequence` and `TerminalWidget::resizeEvent`:
the `screen` grid of `Cell`s (glyph + color), the grid dimensions `rows`/`cols`,
the cursor `cursorX`/`cursorY`, the current drawing color `currentColor`, and
the escape accumulator `escBuf` (a function-local `static QByteArray` in the
source; modelled as a state field for the single widget instance the program
creates).

Bytes are `Nat` values in 0..255 (`uchar byte = data[i]` in the source).
Coordinates and dimensions are `Int`, matching the C++ `int` fields.  The grid
is a total function `Int → Int → Cell`: coordinates outside the allocated
`rows × cols` region have no C++ counterpart (indexing there would be
out-of-bounds), and the theorems only inspect in-bounds coordinates or prove
that out-of-region coordinates are left untouched.
-/

namespace QTerm

/-- The Qt global colors that appear in the source (`Qt::black` … `Qt::white`). -/
inductive QtColor where
  | black | red | green | yellow | blue | magenta | cyan | white
deriving DecidableEq, Repr

/-- `struct Cell { QChar ch; QColor color; }` — one grid position. -/
structure Cell where
  ch : Nat
  color : QtColor
deriving DecidableEq, Repr

/-- `Cell() : ch(' '), color(Qt::white)` — the default-constructed cell. -/
def defaultCell : Cell := ⟨32, QtColor.white⟩

/-- The mutable state of `TerminalWidget` that the output path touches. -/
structure TermState where
  screen : Int → Int → Cell
  rows : Int
  cols : Int
  cursorX : Int
  cursorY : Int
  currentColor : QtColor
  escBuf : List Nat

/-- `constexpr int TERM_ROWS = 24`. -/
def TERM_ROWS : Int := 24

/-- `constexpr int TERM_COLS = 80`. -/
def TERM_COLS : Int := 80

/-- The freshly constructed widget state: a `TERM_ROWS × TERM_COLS` grid of
default cells, cursor at the origin, `currentColor = Qt::white`, empty
escape accumulator. -/
def initState : TermState :=
  { screen := fun _ _ => defaultCell
    rows := TERM_ROWS
    cols := TERM_COLS
    cursorX := 0
    cursorY := 0
    currentColor := QtColor.white
    escBuf := [] }

/-! ### The SGR regular expression

`parseEscapeSequence` matches the sequence against
`QRegularExpression("\\x1B\\[(\d+)(;(\d+))*m")` and reads `captured(1)` as an
integer.  Note that in the C++ source the digit class is written `"\d"` inside
a non-raw string literal, which compiles to the literal character `d`; the
model below generously reads it as the intended digit class `[0-9]` — every
theorem in this file holds under either reading, because the only sequences
`handleOutput` ever hands to `parseEscapeSequence` with a `"\x1B["` prefix are
exactly `"\x1B["` itself (the `[` byte lies in the final-byte range `0x40`–
`0x7E` and dispatches immediately), which neither reading matches.

`QRegularExpression::match` searches for the pattern anywhere in the subject;
for this pattern (distinct literals `;`, `m` and the digit class) matching at
a given offset is deterministic and backtracking can never succeed where the
greedy pass fails, so a straightforward scanner is faithful. -/

/-- Decides the regex digit class `[0-9]`. -/
def isDigit (b : Nat) : Bool := 48 ≤ b && b ≤ 57

/-- Splits off the maximal leading digit run (the greedy `\d+`). -/
def takeDigits : List Nat → List Nat × List Nat
  | [] => ([], [])
  | b :: t =>
    if isDigit b then
      let p := takeDigits t
      (b :: p.1, p.2)
    else ([], b :: t)

/-- After the first parameter's digits: recognizes `(;[0-9]+)*m`. -/
def sgrTail : List Nat → Bool
  | [] => false
  | b :: t =>
    if b = 109 then true
    else if isDigit b then sgrTail t
    else if b = 59 then
      match t with
      | [] => false
      | c :: u => if isDigit c then sgrTail u else false
    else false

/-- Numeric value of a digit run (`QString::toInt` on `captured(1)`; the
capture is all digits, and a value outside 30–37 behaves like `toInt`'s
failure value 0 — both fall into the `switch`'s `default`). -/
def digitsVal (ds : List Nat) : Nat := ds.foldl (fun a d => a * 10 + (d - 48)) 0

/-- Tries the SGR pattern anchored at the head of `l`; on success returns the
integer value of `captured(1)`. -/
def matchSgrAt : List Nat → Option Nat
  | 27 :: 91 :: rest =>
    match takeDigits rest with
    | ([], _) => none
    | (d :: ds, rest2) => if sgrTail rest2 then some (digitsVal (d :: ds)) else none
  | _ => none

/-- `QRegularExpression::match`: leftmost occurrence of the pattern anywhere
in the subject. -/
def regexMatchSgr : List Nat → Option Nat
  | [] => none
  | b :: t =>
    match matchSgrAt (b :: t) with
    | some n => some n
    | none => regexMatchSgr t

/-- `seq.startsWith("\x1B[")`. -/
def startsWithCsi : List Nat → Bool
  | a :: b :: _ => a = 27 && b = 91
  | _ => false

/-- The `switch (code)` of `parseEscapeSequence`: codes 30–37 select a color,
everything else hits `default: break;`. -/
def sgrColor (code : Nat) (c : QtColor) : QtColor :=
  match code with
  | 30 => QtColor.black
  | 31 => QtColor.red
  | 32 => QtColor.green
  | 33 => QtColor.yellow
  | 34 => QtColor.blue
  | 35 => QtColor.magenta
  | 36 => QtColor.cyan
  | 37 => QtColor.white
  | _ => c

/-- `TerminalWidget::parseEscapeSequence` (src/main.cpp lines 222–241): if the
sequence starts with `"\x1B["` and the SGR regex matches, update
`currentColor` through the `switch`; otherwise do nothing.  Only
`currentColor` is ever assigned. -/
def parseEscapeSequence (seq : List Nat) (s : TermState) : TermState :=
  if startsWithCsi seq then
    match regexMatchSgr seq with
    | some code => { s with currentColor := sgrColor code s.currentColor }
    | none => s
  else s

/-- The printable-byte branch of `handleOutput`: the guarded write
`if (cursorY < rows and cursorX < cols) screen[cursorY][cursorX] = Cell(QChar(byte), currentColor);`
followed by `cursorX++` and, at `cursorX >= cols`, the wrap
`cursorX = 0; cursorY = qMin(cursorY + 1, rows - 1);`.  The write does not
move the cursor, so the wrap test on the incremented column reads the
original `cursorX`. -/
def printByte (s : TermState) (b : Nat) : TermState :=
  let scr : Int → Int → Cell :=
    if s.cursorY < s.rows ∧ s.cursorX < s.cols then
      fun y x => if y = s.cursorY ∧ x = s.cursorX then ⟨b, s.currentColor⟩ else s.screen y x
    else s.screen
  if s.cursorX + 1 ≥ s.cols then
    { s with screen := scr, cursorX := 0, cursorY := min (s.cursorY + 1) (s.rows - 1) }
  else
    { s with screen := scr, cursorX := s.cursorX + 1 }

/-- One iteration of the `while` loop of `TerminalWidget::handleOutput`
(src/main.cpp lines 190–220): if the escape accumulator is non-empty or the
byte is `ESC` (0x1B), append the byte to the accumulator and, when the byte
lies in the final range `'@'`–`'~'` (0x40–0x7E), dispatch
`parseEscapeSequence` and clear the accumulator; otherwise `\n` does a
newline, and every other byte prints. -/
def handleByte (s : TermState) (b : Nat) : TermState :=
  if s.escBuf ≠ [] ∨ b = 27 then
    if 64 ≤ b ∧ b ≤ 126 then
      { parseEscapeSequence (s.escBuf ++ [b]) s with escBuf := [] }
    else
      { s with escBuf := s.escBuf ++ [b] }
  else if b = 10 then
    { s with cursorX := 0, cursorY := min (s.cursorY + 1) (s.rows - 1) }
  else
    printByte s b

/-- `TerminalWidget::handleOutput`: the loop consumes the chunk byte by byte.
(The trailing `update()` only schedules a repaint.) -/
def handleOutput (s : TermState) (data : List Nat) : TermState :=
  data.foldl handleByte s

/-- `TerminalWidget::resizeEvent` (src/main.cpp lines 114–124): store the new
geometry and resize the grid — `QVector::resize` keeps the overlapping
top-left region and default-constructs the rest.  The cursor is NOT touched.
(The `ioctl`/`kill` calls signal the child process and are outside the
model; the new `rows`/`cols` are taken as parameters in place of
`height()/charHeight` and `width()/charWidth`.) -/
def resizeEvent (s : TermState) (newRows newCols : Int) : TermState :=
  { s with
    rows := newRows
    cols := newCols
    screen := fun y x =>
      if 0 ≤ y ∧ y < min s.rows newRows ∧ 0 ≤ x ∧ x < min s.cols newCols then
        s.screen y x
      else defaultCell }

/-- The spec's Screen-Buffer invariant: cursor within `[0, rows) × [0, cols)`. -/
def cursorInBounds (s : TermState) : Prop :=
  0 ≤ s.cursorX ∧ s.cursorX < s.cols ∧ 0 ≤ s.cursorY ∧ s.cursorY < s.rows

instance (s : TermState) : Decidable (cursorInBounds s) := by
  unfold cursorInBounds; infer_instance

/-! ### Characterization lemmas for the three branches of `handleByte` -/

/-- `parseEscapeSequence` assigns at most `currentColor`: every other field of
the state is carried through unchanged. -/
theorem parseEscapeSequence_frame (seq : List Nat) (s : TermState) :
    (parseEscapeSequence seq s).screen = s.screen ∧
    (parseEscapeSequence seq s).rows = s.rows ∧
    (parseEscapeSequence seq s).cols = s.cols ∧
    (parseEscapeSequence seq s).cursorX = s.cursorX ∧
    (parseEscapeSequence seq s).cursorY = s.cursorY ∧
    (parseEscapeSequence seq s).escBuf = s.escBuf := by
  unfold parseEscapeSequence
  split
  · cases regexMatchSgr seq <;> exact ⟨rfl, rfl, rfl, rfl, rfl, rfl⟩
  · exact ⟨rfl, rfl, rfl, rfl, rfl, rfl⟩

/-- The escape branch of `handleByte`. -/
theorem handleByte_escape (s : TermState) (b : Nat) (h : s.escBuf ≠ [] ∨ b = 27) :
    handleByte s b =
      if 64 ≤ b ∧ b ≤ 126 then
        { parseEscapeSequence (s.escBuf ++ [b]) s with escBuf := [] }
      else
        { s with escBuf := s.escBuf ++ [b] } := by
  unfold handleByte
  rw [if_pos h]

/-- The newline branch of `handleByte`. -/
theorem handleByte_newline (s : TermState) (hbuf : s.escBuf = []) :
    handleByte s 10 =
      { s with cursorX := 0, cursorY := min (s.cursorY + 1) (s.rows - 1) } := by
  unfold handleByte
  rw [if_neg (by simp [hbuf]), if_pos rfl]

/-- The print branch of `handleByte`. -/
theorem handleByte_print (s : TermState) (b : Nat) (hbuf : s.escBuf = [])
    (hb27 : b ≠ 27) (hb10 : b ≠ 10) :
    handleByte s b = printByte s b := by
  unfold handleByte
  rw [if_neg (by simp [hbuf, hb27]), if_neg hb10]

/-- `printByte` never changes the geometry, the accumulator or the color. -/
theorem printByte_fields (s : TermState) (b : Nat) :
    (printByte s b).rows = s.rows ∧ (printByte s b).cols = s.cols ∧
    (printByte s b).escBuf = s.escBuf ∧
    (printByte s b).currentColor = s.currentColor := by
  unfold printByte
  split <;> split <;> exact ⟨rfl, rfl, rfl, rfl⟩

/-- Cursor after a print that does not reach the right margin. -/
theorem printByte_cursor_nowrap (s : TermState) (b : Nat) (h : s.cursorX + 1 < s.cols) :
    (printByte s b).cursorX = s.cursorX + 1 ∧ (printByte s b).cursorY = s.cursorY := by
  unfold printByte
  rw [if_neg (by omega)]
  exact ⟨rfl, rfl⟩

/-- Cursor after a print that reaches the right margin: wrap to column 0,
row clamped by `qMin(cursorY + 1, rows - 1)`. -/
theorem printByte_cursor_wrap (s : TermState) (b : Nat) (h : s.cursorX + 1 ≥ s.cols) :
    (printByte s b).cursorX = 0 ∧
    (printByte s b).cursorY = min (s.cursorY + 1) (s.rows - 1) := by
  unfold printByte
  rw [if_pos h]
  exact ⟨rfl, rfl⟩

/-- A print with the cursor in bounds changes the grid only at the cursor. -/
theorem printByte_screen (s : TermState) (b : Nat) (y x : Int)
    (h : ¬(y = s.cursorY ∧ x = s.cursorX)) :
    (printByte s b).screen y x = s.screen y x := by
  unfold printByte
  split <;> simp only [] <;> split <;> simp [h]

/-- `handleOutput` consumes the first byte and continues: the loop body. -/
theorem handleOutput_cons (s : TermState) (b : Nat) (l : List Nat) :
    handleOutput s (b :: l) = handleOutput (handleByte s b) l := rfl

/-- A one-byte chunk is a single `handleByte` step. -/
theorem handleOutput_one (s : TermState) (b : Nat) :
    handleOutput s [b] = handleByte s b := rfl

/-- Folding over a concatenation equals folding the parts in order. -/
theorem handleOutput_append (s : TermState) (l1 l2 : List Nat) :
    handleOutput s (l1 ++ l2) = handleOutput (handleOutput s l1) l2 := by
  simp [handleOutput]

/-! ### Claims -/

/-- C1: FALSE of the code.  Feeding `"\x1B[31mHI\r\n"` to a fresh widget does
not leave `H` at (0,0) and `I` at (0,1) in red: the `[` byte (0x5B) lies in
the dispatch range `'@'`–`'~'` that `handleOutput` tests for every
accumulated byte, so the sequence is dispatched as just `"\x1B["` (which the
SGR regex does not match), and the remaining bytes `3`, `1`, `m`, `H`, `I`
and even `\r` are printed to the grid as plain white text.  Row 0 holds
`3 1 m H I \r`; only the final cursor position (row 1, column 0, from the
`\n`) agrees with the claim. -/
theorem C1_sgr_sequence_is_printed_as_text :
    (handleOutput initState [27, 91, 51, 49, 109, 72, 73, 13, 10]).screen 0 0 =
        ⟨51, QtColor.white⟩ ∧
    (handleOutput initState [27, 91, 51, 49, 109, 72, 73, 13, 10]).screen 0 1 =
        ⟨49, QtColor.white⟩ ∧
    (handleOutput initState [27, 91, 51, 49, 109, 72, 73, 13, 10]).screen 0 2 =
        ⟨109, QtColor.white⟩ ∧
    (handleOutput initState [27, 91, 51, 49, 109, 72, 73, 13, 10]).screen 0 3 =
        ⟨72, QtColor.white⟩ ∧
    (handleOutput initState [27, 91, 51, 49, 109, 72, 73, 13, 10]).screen 0 4 =
        ⟨73, QtColor.white⟩ ∧
    (handleOutput initState [27, 91, 51, 49, 109, 72, 73, 13, 10]).screen 0 5 =
        ⟨13, QtColor.white⟩ ∧
    (handleOutput initState [27, 91, 51, 49, 109, 72, 73, 13, 10]).screen 0 0 ≠
        ⟨72, QtColor.red⟩ ∧
    (handleOutput initState [27, 91, 51, 49, 109, 72, 73, 13, 10]).screen 0 1 ≠
        ⟨73, QtColor.red⟩ ∧
    (handleOutput initState [27, 91, 51, 49, 109, 72, 73, 13, 10]).cursorX = 0 ∧
    (handleOutput initState [27, 91, 51, 49, 109, 72, 73, 13, 10]).cursorY = 1 ∧
    (handleOutput initState [27, 91, 51, 49, 109, 72, 73, 13, 10]).currentColor =
        QtColor.white := by
  decide

/-- Helper for C3: while the accumulator is non-empty, every non-final byte
(here the digit `'0'` = 48) is simply appended. -/
theorem escBuf_accumulates_digits (n : Nat) :
    ∀ s : TermState, s.escBuf ≠ [] →
      (handleOutput s (List.replicate n 48)).escBuf = s.escBuf ++ List.replicate n 48 := by
  induction n with
  | zero => intro s _; simp [handleOutput]
  | succ n ih =>
    intro s hs
    rw [List.replicate_succ]
    show (handleOutput (handleByte s 48) (List.replicate n 48)).escBuf = _
    rw [handleByte_escape s 48 (Or.inl hs), if_neg (by omega)]
    rw [ih { s with escBuf := s.escBuf ++ [48] } (by simp)]
    simp [List.replicate_succ]

/-- C3: FALSE of the code.  `handleOutput` puts no bound at all on the escape
accumulator: after `ESC` followed by `n` digit bytes the static `escBuf`
holds the entire `n + 1`-byte sequence, for every `n` — in particular it
exceeds 64 bytes without the parser ever resetting to Ground. -/
theorem C3_escBuf_grows_without_bound (n : Nat) :
    (handleOutput initState (27 :: List.replicate n 48)).escBuf =
      27 :: List.replicate n 48 := by
  show (handleOutput (handleByte initState 27) (List.replicate n 48)).escBuf = _
  rw [handleByte_escape initState 27 (Or.inr rfl), if_neg (by omega)]
  rw [escBuf_accumulates_digits n { initState with escBuf := initState.escBuf ++ [27] }
    (by simp [initState])]
  simp [initState]

/-- C4: FALSE of the code.  Feeding `"\x1B[2J"` on a buffer holding `A` at
(0,0) (cursor at (0,1)) erases nothing: `parseEscapeSequence` has no handler
for `J` at all, the sequence is dispatched as `"\x1B["` at the `[` byte, and
the bytes `2` and `J` are then printed at the cursor, which advances to
column 3.  The pre-existing `A` survives, no cell is blanked, and the cursor
moves. -/
theorem C4_erase_display_is_not_implemented :
    (handleOutput (handleOutput initState [65]) [27, 91, 50, 74]).screen 0 0 =
        ⟨65, QtColor.white⟩ ∧
    (handleOutput (handleOutput initState [65]) [27, 91, 50, 74]).screen 0 0 ≠
        defaultCell ∧
    (handleOutput (handleOutput initState [65]) [27, 91, 50, 74]).screen 0 1 =
        ⟨50, QtColor.white⟩ ∧
    (handleOutput (handleOutput initState [65]) [27, 91, 50, 74]).screen 0 2 =
        ⟨74, QtColor.white⟩ ∧
    (handleOutput (handleOutput initState [65]) [27, 91, 50, 74]).cursorX = 3 ∧
    (handleOutput (handleOutput initState [65]) [27, 91, 50, 74]).cursorY = 0 ∧
    (handleOutput initState [65]).cursorX = 1 := by
  decide

/-- C5: FALSE of the code.  Starting from a state whose `currentColor` is red
(obtained by handing `"\x1B[31m"` directly to `parseEscapeSequence`, the only
way any color change can happen), feeding `"\x1B[0m"` does not reset the
attribute state: code 0 is not among the `switch` cases 30–37, and the
sequence is in fact dispatched as just `"\x1B["` at the `[` byte, after which
`0` and `m` are printed — in red.  A subsequently printed `X` is also stamped
red, not with the default white. -/
theorem C5_sgr_reset_does_not_restore_defaults :
    (parseEscapeSequence [27, 91, 51, 49, 109] initState).currentColor = QtColor.red ∧
    (handleOutput (parseEscapeSequence [27, 91, 51, 49, 109] initState)
        [27, 91, 48, 109]).currentColor = QtColor.red ∧
    (handleOutput (parseEscapeSequence [27, 91, 51, 49, 109] initState)
        [27, 91, 48, 109]).screen 0 0 = ⟨48, QtColor.red⟩ ∧
    (handleOutput (parseEscapeSequence [27, 91, 51, 49, 109] initState)
        [27, 91, 48, 109, 88]).screen 0 2 = ⟨88, QtColor.red⟩ := by
  decide

set_option maxRecDepth 20000 in
/-- C6: FALSE of the code.  `resizeEvent` never clamps the cursor.  Drive the
fresh 24×80 widget to cursor row 20, column 50 (twenty newlines then fifty
prints), then shrink to 12 rows × 40 columns: the cursor stays at (20, 50),
far outside the new `[0,12) × [0,40)` bounds. -/
theorem C6_resize_does_not_clamp_cursor :
    cursorInBounds
      (handleOutput initState (List.replicate 20 10 ++ List.replicate 50 65)) ∧
    (resizeEvent (handleOutput initState (List.replicate 20 10 ++ List.replicate 50 65))
        12 40).rows = 12 ∧
    (resizeEvent (handleOutput initState (List.replicate 20 10 ++ List.replicate 50 65))
        12 40).cols = 40 ∧
    (resizeEvent (handleOutput initState (List.replicate 20 10 ++ List.replicate 50 65))
        12 40).cursorX = 50 ∧
    (resizeEvent (handleOutput initState (List.replicate 20 10 ++ List.replicate 50 65))
        12 40).cursorY = 20 ∧
    ¬ cursorInBounds
      (resizeEvent (handleOutput initState (List.replicate 20 10 ++ List.replicate 50 65))
        12 40) := by
  decide

/-- C8, counterexample: FALSE as stated.  Immediately after an `ESC` byte,
the byte `5` (0x35, not `[`) does not end the escape and return the parser to
Ground: it is outside the dispatch range `0x40`–`0x7E`, so it is appended and
the accumulator still holds the two bytes. -/
theorem C8_counterexample_nonfinal_byte_stays_in_escape :
    (handleOutput initState [27, 53]).escBuf = [27, 53] ∧
    (handleOutput initState [27, 53]).escBuf ≠ [] := by
  decide

/-- C2: `handleOutput` is a left fold of `handleByte` over the bytes and all
parser state (including the static accumulator) lives in the state that is
threaded through, so feeding one chunk equals feeding any two-way split of
it in succession. -/
theorem C2_chunk_split_invariance (s : TermState) (data1 data2 : List Nat) :
    handleOutput s (data1 ++ data2) = handleOutput (handleOutput s data1) data2 :=
  handleOutput_append s data1 data2

/-- Helper for C7: a run of printable bytes that stays strictly inside the
current line moves the cursor right one column per byte, changes neither the
row, the accumulator nor the geometry, and writes only into the cursor's
row. -/
theorem printRun_in_line (l : List Nat) :
    ∀ s : TermState, (∀ b ∈ l, 32 ≤ b) → s.escBuf = [] →
      s.cursorX + (l.length : Int) < s.cols →
      (handleOutput s l).cursorX = s.cursorX + (l.length : Int) ∧
      (handleOutput s l).cursorY = s.cursorY ∧
      (handleOutput s l).escBuf = [] ∧
      (handleOutput s l).rows = s.rows ∧
      (handleOutput s l).cols = s.cols ∧
      ∀ y x : Int, y ≠ s.cursorY → (handleOutput s l).screen y x = s.screen y x := by
  induction l with
  | nil =>
    intro s _ hbuf _
    exact ⟨by simp [handleOutput], rfl, hbuf, rfl, rfl, fun _ _ _ => rfl⟩
  | cons b t ih =>
    intro s hall hbuf hlt
    rw [List.length_cons] at hlt
    push_cast at hlt
    rw [handleOutput_cons]
    have hb : 32 ≤ b := hall b (List.mem_cons_self b t)
    rw [handleByte_print s b hbuf (by omega) (by omega)]
    obtain ⟨hrows, hcols, hesc, _⟩ := printByte_fields s b
    obtain ⟨hcx, hcy⟩ := printByte_cursor_nowrap s b (by omega)
    obtain ⟨ih1, ih2, ih3, ih4, ih5, ih6⟩ := ih (printByte s b)
      (fun c hc => hall c (List.mem_cons_of_mem b hc))
      (by rw [hesc, hbuf])
      (by rw [hcx, hcols]; omega)
    refine ⟨?_, ?_, ih3, ?_, ?_, ?_⟩
    · rw [ih1, hcx, List.length_cons]; push_cast; ring
    · rw [ih2, hcy]
    · rw [ih4, hrows]
    · rw [ih5, hcols]
    · intro y x hy
      rw [ih6 y x (by rw [hcy]; exact hy)]
      exact printByte_screen s b y x (fun hc => hy hc.1)

/-- C7: with the parser in Ground and the cursor at column 0 of a row inside
the grid, printing any sequence of exactly `cols` printable glyphs leaves
the cursor at column 0 of row `qMin(row + 1, rows - 1)` — the next row,
clamped at the last row.  The cursor row never decreases (in particular it
never returns to row 0 from a later row), the geometry is untouched, and
every cell outside the starting row is unchanged: the wrap never scrolls
the grid. -/
theorem C7_full_line_wraps_to_next_row (s : TermState) (l : List Nat)
    (hbuf : s.escBuf = []) (hprint : ∀ b ∈ l, 32 ≤ b) (hne : l ≠ [])
    (hcols : s.cols = (l.length : Int)) (hx : s.cursorX = 0)
    (hy0 : 0 ≤ s.cursorY) (hy1 : s.cursorY < s.rows) :
    (handleOutput s l).cursorX = 0 ∧
    (handleOutput s l).cursorY = min (s.cursorY + 1) (s.rows - 1) ∧
    s.cursorY ≤ (handleOutput s l).cursorY ∧
    (handleOutput s l).rows = s.rows ∧
    (handleOutput s l).cols = s.cols ∧
    ∀ y x : Int, y ≠ s.cursorY → (handleOutput s l).screen y x = s.screen y x := by
  have hdec := List.dropLast_append_getLast hne
  have hnpos : 0 < l.length := List.length_pos.mpr hne
  have hflen : l.dropLast.length = l.length - 1 := List.length_dropLast l
  have hz : 32 ≤ l.getLast hne := hprint _ (List.getLast_mem hne)
  have hfmem : ∀ b ∈ l.dropLast, 32 ≤ b :=
    fun b hb => hprint b ((List.dropLast_prefix l).subset hb)
  obtain ⟨h1, h2, h3, h4, h5, h6⟩ := printRun_in_line l.dropLast s hfmem hbuf
    (by rw [hx, hcols, hflen]; omega)
  rw [← hdec, handleOutput_append, handleOutput_one]
  rw [handleByte_print _ (l.getLast hne) h3 (by omega) (by omega)]
  obtain ⟨hrows2, hcols2, _, _⟩ :=
    printByte_fields (handleOutput s l.dropLast) (l.getLast hne)
  obtain ⟨hwx, hwy⟩ := printByte_cursor_wrap (handleOutput s l.dropLast) (l.getLast hne)
    (by rw [h1, h5, hx, hcols, hflen]; omega)
  refine ⟨hwx, ?_, ?_, ?_, ?_, ?_⟩
  · rw [hwy, h2, h4]
  · rw [hwy, h2, h4]; omega
  · rw [hrows2, h4]
  · rw [hcols2, h5]
  · intro y x hy
    rw [printByte_screen _ _ y x (fun hc => hy (hc.1.trans h2)), h6 y x hy]

/-- Witness for C7 at the fresh widget: the 80 printable bytes
`A B A B …` starting at (0,0) leave the cursor at column 0 of row 1 and
leave row 5 untouched. -/
theorem C7_full_line_wraps_to_next_row_witness :
    initState.escBuf = [] ∧
    (∀ b ∈ List.replicate 40 65 ++ List.replicate 40 66, 32 ≤ b) ∧
    List.replicate 40 65 ++ List.replicate 40 66 ≠ [] ∧
    initState.cols = (((List.replicate 40 65 ++ List.replicate 40 66).length : Nat) : Int) ∧
    initState.cursorX = 0 ∧ 0 ≤ initState.cursorY ∧ initState.cursorY < initState.rows ∧
    (handleOutput initState (List.replicate 40 65 ++ List.replicate 40 66)).cursorX = 0 ∧
    (handleOutput initState (List.replicate 40 65 ++ List.replicate 40 66)).cursorY =
      min (initState.cursorY + 1) (initState.rows - 1) ∧
    (handleOutput initState (List.replicate 40 65 ++ List.replicate 40 66)).screen 5 0 =
      initState.screen 5 0 := by
  refine ⟨rfl, by decide, by decide, by decide, rfl, by decide, by decide, ?_, ?_, ?_⟩
  · exact (C7_full_line_wraps_to_next_row initState
      (List.replicate 40 65 ++ List.replicate 40 66) rfl (by decide) (by decide)
      (by decide) rfl (by decide) (by decide)).1
  · exact (C7_full_line_wraps_to_next_row initState
      (List.replicate 40 65 ++ List.replicate 40 66) rfl (by decide) (by decide)
      (by decide) rfl (by decide) (by decide)).2.1
  · exact (C7_full_line_wraps_to_next_row initState
      (List.replicate 40 65 ++ List.replicate 40 66) rfl (by decide) (by decide)
      (by decide) rfl (by decide) (by decide)).2.2.2.2.2 5 0 (by decide)

/-- Helper for C8: a two-byte escape `ESC b` is a no-op for
`parseEscapeSequence` — for `b ≠ '['` the `startsWith("\x1B[")` guard fails,
and for `b = '['` the SGR regex does not match the bare `"\x1B["`. -/
theorem parseEscapeSequence_two_bytes (b : Nat) (s : TermState) :
    parseEscapeSequence [27, b] s = s := by
  by_cases hb : b = 91
  · subst hb; rfl
  · have hcsi : startsWithCsi [27, b] = false := by simp [startsWithCsi, hb]
    simp [parseEscapeSequence, hcsi]

/-- C8 (amended): in the Escape state (accumulator holds exactly `ESC`), a
byte in the final range 0x40–0x7E — including `[` — completes the escape: it
is dispatched (a no-op, since no two-byte escape is recognized) and the
parser returns to Ground; a byte outside that range is appended and the
parser stays mid-escape.  In both cases the byte is consumed into the
accumulator: the grid, the cursor and the current color are untouched, and
nothing is printed. -/
theorem C8_escape_state_transition (s : TermState) (b : Nat) (h : s.escBuf = [27]) :
    (64 ≤ b ∧ b ≤ 126 → (handleByte s b).escBuf = []) ∧
    (¬(64 ≤ b ∧ b ≤ 126) → (handleByte s b).escBuf = [27, b]) ∧
    (handleByte s b).screen = s.screen ∧
    (handleByte s b).cursorX = s.cursorX ∧
    (handleByte s b).cursorY = s.cursorY ∧
    (handleByte s b).currentColor = s.currentColor := by
  have hne : s.escBuf ≠ [] := by rw [h]; simp
  rw [handleByte_escape s b (Or.inl hne), h]
  by_cases hf : 64 ≤ b ∧ b ≤ 126
  · rw [if_pos hf]
    have h2 : ([27] ++ [b] : List Nat) = [27, b] := rfl
    rw [h2, parseEscapeSequence_two_bytes]
    exact ⟨fun _ => rfl, fun hc => absurd hf hc, rfl, rfl, rfl, rfl⟩
  · rw [if_neg hf]
    exact ⟨fun hc => absurd hc hf, fun _ => rfl, rfl, rfl, rfl, rfl⟩

/-- Witness for C8 (amended): after `ESC`, the digit `5` keeps the parser
mid-escape with accumulator `[ESC, '5']`, while `J` (0x4A) dispatches and
returns it to Ground. -/
theorem C8_escape_state_transition_witness :
    (handleOutput initState [27]).escBuf = [27] ∧
    (handleByte (handleOutput initState [27]) 53).escBuf = [27, 53] ∧
    (handleByte (handleOutput initState [27]) 74).escBuf = [] := by
  refine ⟨by decide, ?_, ?_⟩
  · exact (C8_escape_state_transition (handleOutput initState [27]) 53 (by decide)).2.1
      (by decide)
  · exact (C8_escape_state_transition (handleOutput initState [27]) 74 (by decide)).1
      (by decide)

/-- Single-byte preservation for C9: from a state with the cursor in bounds,
`handleByte` keeps the cursor in bounds, keeps the geometry, and leaves every
cell outside the `[0, rows) × [0, cols)` region unchanged. -/
theorem handleByte_in_bounds (s : TermState) (b : Nat) (h : cursorInBounds s) :
    cursorInBounds (handleByte s b) ∧
    (handleByte s b).rows = s.rows ∧ (handleByte s b).cols = s.cols ∧
    ∀ y x : Int, ¬(0 ≤ y ∧ y < s.rows ∧ 0 ≤ x ∧ x < s.cols) →
      (handleByte s b).screen y x = s.screen y x := by
  obtain ⟨hx0, hx1, hy0, hy1⟩ := h
  by_cases he : s.escBuf ≠ [] ∨ b = 27
  · rw [handleByte_escape s b he]
    split
    · obtain ⟨hscr, hrows, hcols, hcx, hcy, _⟩ := parseEscapeSequence_frame (s.escBuf ++ [b]) s
      refine ⟨?_, ?_, ?_, fun y x _ => ?_⟩
      · simp only [cursorInBounds]
        rw [hcx, hcy, hcols, hrows]
        exact ⟨hx0, hx1, hy0, hy1⟩
      · exact hrows
      · exact hcols
      · show (parseEscapeSequence (s.escBuf ++ [b]) s).screen y x = s.screen y x
        rw [hscr]
    · exact ⟨⟨hx0, hx1, hy0, hy1⟩, rfl, rfl, fun _ _ _ => rfl⟩
  · push_neg at he
    obtain ⟨hbuf, hb27⟩ := he
    by_cases hb10 : b = 10
    · subst hb10
      rw [handleByte_newline s hbuf]
      refine ⟨?_, rfl, rfl, fun _ _ _ => rfl⟩
      simp only [cursorInBounds]
      omega
    · rw [handleByte_print s b hbuf hb27 hb10]
      obtain ⟨hrows, hcols, _, _⟩ := printByte_fields s b
      refine ⟨?_, hrows, hcols, ?_⟩
      · by_cases hw : s.cursorX + 1 ≥ s.cols
        · obtain ⟨hwx, hwy⟩ := printByte_cursor_wrap s b hw
          exact ⟨by omega, by omega, by omega, by omega⟩
        · obtain ⟨hnx, hny⟩ := printByte_cursor_nowrap s b (by omega)
          exact ⟨by omega, by omega, by omega, by omega⟩
      · intro y x hout
        exact printByte_screen s b y x (by rintro ⟨rfl, rfl⟩; exact hout ⟨hy0, hy1, hx0, hx1⟩)

/-- C9: `handleOutput` never writes to a cell outside the `rows × cols` grid
— every out-of-region cell is unchanged after the call — and the cursor
bounds invariant `0 ≤ cursorX < cols ∧ 0 ≤ cursorY < rows` is preserved,
the geometry being untouched. -/
theorem C9_no_write_outside_grid (data : List Nat) :
    ∀ s : TermState, cursorInBounds s →
      cursorInBounds (handleOutput s data) ∧
      (handleOutput s data).rows = s.rows ∧
      (handleOutput s data).cols = s.cols ∧
      ∀ y x : Int, ¬(0 ≤ y ∧ y < s.rows ∧ 0 ≤ x ∧ x < s.cols) →
        (handleOutput s data).screen y x = s.screen y x := by
  induction data with
  | nil => intro s h; exact ⟨h, rfl, rfl, fun _ _ _ => rfl⟩
  | cons b t ih =>
    intro s h
    rw [handleOutput_cons]
    obtain ⟨h1, hrows, hcols, hframe⟩ := handleByte_in_bounds s b h
    obtain ⟨h1', hrows', hcols', hframe'⟩ := ih (handleByte s b) h1
    refine ⟨h1', by rw [hrows', hrows], by rw [hcols', hcols], ?_⟩
    intro y x hout
    rw [hframe' y x (by rw [hrows, hcols]; exact hout), hframe y x hout]

/-- Witness for C9: from the fresh widget, feeding a mixed chunk keeps the
cursor in bounds and leaves the out-of-grid cell (24, 80) untouched. -/
theorem C9_no_write_outside_grid_witness :
    cursorInBounds initState ∧
    cursorInBounds (handleOutput initState [27, 91, 72, 10, 65]) ∧
    (handleOutput initState [27, 91, 72, 10, 65]).screen 24 80 =
      initState.screen 24 80 := by
  refine ⟨by decide, ?_, ?_⟩
  · exact (C9_no_write_outside_grid [27, 91, 72, 10, 65] initState (by decide)).1
  · exact (C9_no_write_outside_grid [27, 91, 72, 10, 65] initState (by decide)).2.2.2
      24 80 (by decide)

/-- C10: frame separation.  A byte handled outside any escape sequence
(empty accumulator and not ESC) never changes the current attribute state
`currentColor`; a byte handled on the escape path (non-empty accumulator, or
ESC itself) — including the final byte that dispatches the completed
sequence — changes at most `currentColor` and never any grid cell or the
cursor. -/
theorem C10_attribute_grid_frame_separation (s : TermState) (b : Nat) :
    (s.escBuf = [] ∧ b ≠ 27 → (handleByte s b).currentColor = s.currentColor) ∧
    (s.escBuf ≠ [] ∨ b = 27 →
      (handleByte s b).screen = s.screen ∧
      (handleByte s b).cursorX = s.cursorX ∧
      (handleByte s b).cursorY = s.cursorY) := by
  constructor
  · rintro ⟨hbuf, hb27⟩
    by_cases hb10 : b = 10
    · subst hb10; rw [handleByte_newline s hbuf]
    · rw [handleByte_print s b hbuf hb27 hb10]
      exact (printByte_fields s b).2.2.2
  · intro he
    rw [handleByte_escape s b he]
    split
    · obtain ⟨hscr, _, _, hcx, hcy, _⟩ := parseEscapeSequence_frame (s.escBuf ++ [b]) s
      exact ⟨hscr, hcx, hcy⟩
    · exact ⟨rfl, rfl, rfl⟩

/-- Witness for C10: the printable byte `H` leaves `currentColor` alone, and
the ESC byte leaves grid and cursor alone. -/
theorem C10_attribute_grid_frame_separation_witness :
    (handleByte initState 72).currentColor = initState.currentColor ∧
    (handleByte initState 27).screen = initState.screen ∧
    (handleByte initState 27).cursorX = initState.cursorX ∧
    (handleByte initState 27).cursorY = initState.cursorY := by
  refine ⟨(C10_attribute_grid_frame_separation initState 72).1 (by decide), ?_⟩
  exact (C10_attribute_grid_frame_separation initState 27).2 (by decide)

end QTerm
